import Mathlib

/-!
Verification of the payload-normalization engine and the idempotent
daily-post scheduler of the a-map-of-us Discord bot (src/main.py, with
src/bot.py a near duplicate).  JSON values are embedded as the inductive
`Json`; Python dict lookup is first-match lookup over an association
list; Python `str.strip` is `pyStrip` (ASCII whitespace); Python
exceptions are modelled with `Except`.
-/

/-- A JSON value as Python's json module produces it: objects are
association lists (Python dicts have unique keys; lookup is first
match), numbers are integers here since no claim involves fractional
arithmetic. -/
inductive Json where
  | null : Json
  | bool (b : Bool) : Json
  | num (n : Int) : Json
  | str (s : String) : Json
  | arr (xs : List Json) : Json
  | obj (fields : List (String × Json)) : Json
deriving Repr

/-- First-match lookup in an object's field list, Python's `d.get(k)`
(returning `none` for an absent key; a present key with JSON null value
yields `some Json.null`). -/
def Json.getKey (fields : List (String × Json)) (k : String) : Option Json :=
  match fields with
  | [] => none
  | (k', v) :: rest => if k' = k then some v else Json.getKey rest k

/-- Python's `k in d` on a dict. -/
def Json.hasKey (fields : List (String × Json)) (k : String) : Bool :=
  (Json.getKey fields k).isSome

/-- Python's `str.strip()`: drop whitespace from both ends. -/
def pyStrip (s : String) : String :=
  String.mk (((s.data.dropWhile Char.isWhitespace).reverse.dropWhile
    Char.isWhitespace).reverse)

/-- Python's `not v.strip()` for a string `v`: true when the string is
empty or all whitespace. -/
def isBlank (s : String) : Bool :=
  s.data.all Char.isWhitespace

/-- Python truthiness of a JSON value (`bool(v)`). -/
def Json.isTruthy : Json → Bool
  | .null => false
  | .bool b => b
  | .num n => n ≠ 0
  | .str s => s ≠ ""
  | .arr xs => !xs.isEmpty
  | .obj fs => !fs.isEmpty

/-- One descent step of `unwrap_data` (src/main.py lines 63-72): from a
dict with a "data" key, descend into the value when it is a dict, or
into its first element when it is a non-empty list whose first element
is a dict; otherwise no step applies. -/
def unwrap_step (cur : Json) : Option Json :=
  match cur with
  | .obj fields =>
    match Json.getKey fields "data" with
    | some nxt =>
      match nxt with
      | .obj _ => some nxt
      | .arr (h :: _) =>
        match h with
        | .obj _ => some h
        | _ => none
      | _ => none
    | none => none
  | _ => none

/-- The bounded descent loop of `unwrap_data`: at most `fuel` descent
steps (the source fixes `fuel = 6` via `for _ in range(6)`). -/
def unwrap_loop : Nat → Json → Json
  | 0, cur => cur
  | n + 1, cur =>
    match unwrap_step cur with
    | some nxt => unwrap_loop n nxt
    | none => cur

/-- `unwrap_data(payload)` (src/main.py lines 61-73): run the bounded
descent, then return the resulting dict's fields, or the empty dict when
the result is not a dict. -/
def unwrap_data (payload : Json) : List (String × Json) :=
  match unwrap_loop 6 payload with
  | .obj fields => fields
  | _ => []

/-- `first_present(d, *keys)` (src/main.py lines 76-84): the value of
the first key whose value is present, not None (JSON null), and not a
blank string. -/
def first_present (d : List (String × Json)) : List String → Option Json
  | [] => none
  | k :: ks =>
    match Json.getKey d k with
    | none => first_present d ks
    | some v =>
      match v with
      | .null => first_present d ks
      | .str s => if isBlank s then first_present d ks else some (.str s)
      | _ => some v

/-- The Python exceptions the embedding tracks: `AttributeError` (from
calling `.strip()` or `.get()` on a non-string / non-dict),
`UnicodeDecodeError` (reading a state file whose bytes are not valid
UTF-8), and the `RuntimeError` raised by `get_random_mous_full` when the
random endpoint returns an unusable shape. -/
inductive PyErr where
  | attributeError
  | unicodeDecodeError
  | runtimeShapeError
deriving Repr, DecidableEq

/-- Python's `x or default` applied to the result of `first_present`:
the value when present and truthy, the default otherwise. -/
def pyOr (v : Option Json) (dflt : Json) : Json :=
  match v with
  | some x => if x.isTruthy then x else dflt
  | none => dflt

/-- `lang = (first_present(data, "language", "lang") or "").strip()`
(src/main.py line 93): `.strip()` on a truthy non-string value raises
`AttributeError`. -/
def langOf (data : List (String × Json)) : Except PyErr String :=
  match first_present data ["language", "lang"] with
  | none => .ok ""
  | some v =>
    if v.isTruthy then
      match v with
      | .str s => .ok (pyStrip s)
      | _ => .error .attributeError
    else .ok ""

/-- `translations = data.get("translations") or {}` (src/main.py line
92): the stored value when truthy, the empty dict otherwise. -/
def pyTranslations (data : List (String × Json)) : Json :=
  match Json.getKey data "translations" with
  | some v => if v.isTruthy then v else .obj []
  | none => .obj []

/-- The translation-fallback tail of `pick_text` (src/main.py lines
92-104), reached when no direct text key resolves. -/
def pick_text_rest (data : List (String × Json)) : Except PyErr String :=
  match langOf data with
  | .error e => .error e
  | .ok lang =>
    match pyTranslations data with
    | .obj tfields =>
      if lang = "" then .ok "*No text found.*"
      else
        match Json.getKey tfields lang with
        | some (.str s) =>
          if isBlank s then .ok "*No text found.*" else .ok (pyStrip s)
        | some (.obj ofields) =>
          match first_present ofields ["text", "value", "content"] with
          | some (.str s) =>
            if isBlank s then .ok "*No text found.*" else .ok (pyStrip s)
          | _ => .ok "*No text found.*"
        | _ => .ok "*No text found.*"
    | _ => .ok "*No text found.*"

/-- `pick_text(data)` (src/main.py lines 87-104). -/
def pick_text (data : List (String × Json)) : Except PyErr String :=
  match first_present data ["text", "message", "content", "body"] with
  | some (.str s) => if isBlank s then pick_text_rest data else .ok (pyStrip s)
  | _ => pick_text_rest data

/-- The canonical display record extracted by `build_embed`
(src/main.py lines 107-129): author name, date, category, id (each the
resolved JSON value or its string default) and the body text. -/
structure CanonicalRecord where
  username : Json
  memoryDate : Json
  category : Json
  mousId : Json
  text : String
deriving Repr

/-- Python `v == "Unknown date"` on an arbitrary value. -/
def isUnknownDate : Json → Bool
  | .str s => s = "Unknown date"
  | _ => false

/-- The memory-date resolution of `build_embed` (src/main.py lines 111
and 114-117): primary keys with default "Unknown date", then the
created_at/createdAt fallback applied whenever the current value equals
the string "Unknown date". -/
def resolve_memory_date (data : List (String × Json)) : Json :=
  let md := pyOr (first_present data ["memory_date", "memoryDate", "date"])
    (.str "Unknown date")
  if isUnknownDate md then
    match first_present data ["created_at", "createdAt"] with
    | some (.str c) => if isBlank c then md else .str c
    | _ => md
  else md

/-- The field extraction of `build_embed` (src/main.py lines 107-129),
up to the embed object itself: unwrap, resolve the five fields,
propagating the exception `pick_text` can raise. -/
def build_record (payload : Json) : Except PyErr CanonicalRecord :=
  let data := unwrap_data payload
  let username := pyOr
    (first_present data ["username", "user", "author", "display_name", "name"])
    (.str "Unknown")
  let memoryDate := resolve_memory_date data
  let category := pyOr (first_present data ["category", "type"]) (.str "mous")
  let mousId := pyOr (first_present data ["id", "ID"]) (.str "unknown-id")
  match pick_text data with
  | .error e => .error e
  | .ok text => .ok ⟨username, memoryDate, category, mousId, text⟩

/-- What the state file's bytes hold: bytes that are not valid UTF-8,
decodable text that is not valid JSON, or a parsed JSON document. -/
inductive FileContent where
  | invalidUtf8
  | malformedText
  | jsonValue (j : Json)

/-- The on-disk condition of the daily-post state file. -/
inductive DiskState where
  | absent
  | ioError
  | file (c : FileContent)

/-- `load_last_post_date()` (src/main.py lines 132-143).  The `except`
clauses catch `FileNotFoundError`, `json.JSONDecodeError` and `OSError`;
a `UnicodeDecodeError` raised while `json.load` reads a non-UTF-8 file
matches none of them and propagates. -/
def load_last_post_date : DiskState → Except PyErr (Option String)
  | .absent => .ok none
  | .ioError => .ok none
  | .file .invalidUtf8 => .error .unicodeDecodeError
  | .file .malformedText => .ok none
  | .file (.jsonValue j) =>
    match j with
    | .obj fields =>
      match Json.getKey fields "last_post_date" with
      | some (.str s) => .ok (some s)
      | _ => .ok none
    | _ => .ok none

/-- `save_last_post_date(date_str)` (src/main.py lines 146-151): the
write either replaces the file with the one-field marker object or, on
`OSError` (modelled by `writeOk = false`), is swallowed leaving the disk
unchanged. -/
def save_last_post_date (date_str : String) (writeOk : Bool)
    (d : DiskState) : DiskState :=
  if writeOk then .file (.jsonValue (.obj [("last_post_date", .str date_str)]))
  else d

/-- The environment of one scheduler fire: whether the target channel
resolves to a messageable channel, the outcome of
`get_random_mous_full` (error means it raised), whether `channel.send`
succeeds, and whether the state-file write succeeds. -/
structure FireEnv where
  channelOk : Bool
  payload : Except Unit Json
  sendOk : Bool
  saveOk : Bool

/-- Result of one fire: the resulting disk state and how many messages
were successfully sent (0 or 1). -/
structure FireResult where
  disk : DiskState
  sends : Nat

/-- The fire logic of `daily_mous` (src/main.py lines 225-256): guard on
the loaded marker, resolve the channel, then a `try` block running
fetch, normalize/render, send and save, whose exceptions are all caught
and discarded.  The initial `load_last_post_date()` call sits outside
the `try`, so an exception it raises propagates out of the handler. -/
def daily_fire (today : String) (e : FireEnv) (d : DiskState) :
    Except PyErr FireResult :=
  match load_last_post_date d with
  | .error err => .error err
  | .ok m =>
    if m = some today then .ok ⟨d, 0⟩
    else if e.channelOk = false then .ok ⟨d, 0⟩
    else
      match e.payload with
      | .error _ => .ok ⟨d, 0⟩
      | .ok p =>
        match build_record p with
        | .error _ => .ok ⟨d, 0⟩
        | .ok _ =>
          if e.sendOk then .ok ⟨save_last_post_date today e.saveOk d, 1⟩
          else .ok ⟨d, 0⟩

/-- `get_random_mous_full()` (src/main.py lines 154-172), with the
network abstracted: `randPayload` is the parsed response of the random
endpoint and `fetchById id` the parsed response of the by-id endpoint.
Returns the chosen payload together with the list of ids fetched from
the by-id endpoint (so its length counts the follow-up fetches).  Note
the fallback id is read from the original `rand_payload`, not the
unwrapped `rand_data`; `first_present` on a non-dict payload raises
`AttributeError`. -/
def get_random_mous_full (randPayload : Json) (fetchById : String → Json) :
    Except PyErr (Json × List String) :=
  let rand_data := unwrap_data randPayload
  let maybe_username :=
    first_present rand_data ["username", "text", "memory_date", "category"]
  if maybe_username.isSome &&
      (Json.hasKey rand_data "text" || Json.hasKey rand_data "username" ||
        Json.hasKey rand_data "memory_date") then
    .ok (randPayload, [])
  else
    match randPayload with
    | .obj pfields =>
      match first_present pfields ["id", "ID"] with
      | some (.str s) =>
        if isBlank s then .error .runtimeShapeError
        else .ok (fetchById s, [s])
      | _ => .error .runtimeShapeError
    | _ => .error .attributeError

/-- Whether `first_present` treats key `k` of `d` as absent: the key is
missing, its value is JSON null (Python `None`), or its value is a blank
string. -/
def skippedB (d : List (String × Json)) (k : String) : Bool :=
  match Json.getKey d k with
  | none => true
  | some .null => true
  | some (.str s) => isBlank s
  | some _ => false

/-- Exactly `n` applications of the `unwrap_data` descent rule. -/
def descend : Nat → Json → Option Json
  | 0, p => some p
  | n + 1, p =>
    match unwrap_step p with
    | some q => descend n q
    | none => none

/-- Whether a JSON value is an object (`isinstance(v, dict)`). -/
def Json.isObj : Json → Bool
  | .obj _ => true
  | _ => false

/-- What "non-empty" means for a canonical-record field: not JSON null,
and not an empty or whitespace-only string. -/
def fieldNonEmpty : Json → Bool
  | .null => false
  | .str s => !(isBlank s)
  | _ => true

example : unwrap_data (.obj [("data", .obj [("id", .str "x")])]) =
    [("id", Json.str "x")] := rfl
example : unwrap_data (.obj [("data", .arr [.obj [("id", .str "x")]])]) =
    [("id", Json.str "x")] := rfl
example : unwrap_data (.str "hi") = [] := rfl
example : first_present [("a", .str "  "), ("b", .num 3)] ["a", "b"] =
    some (.num 3) := rfl
example : first_present [("a", .null)] ["a"] = none := rfl

theorem first_present_cons (d : List (String × Json)) (k : String)
    (ks : List String) :
    first_present d (k :: ks) =
      if skippedB d k then first_present d ks else Json.getKey d k := by
  rcases hv : Json.getKey d k with _ | v
  · simp [first_present, skippedB, hv]
  · cases v with
    | null => simp [first_present, skippedB, hv]
    | bool b => simp [first_present, skippedB, hv]
    | num n => simp [first_present, skippedB, hv]
    | str s =>
      by_cases hb : isBlank s
      · simp [first_present, skippedB, hv, hb]
      · simp [first_present, skippedB, hv, hb]
    | arr xs => simp [first_present, skippedB, hv]
    | obj fs => simp [first_present, skippedB, hv]

theorem skippedB_false_getKey {d : List (String × Json)} {k : String}
    (h : skippedB d k = false) : ∃ v, Json.getKey d k = some v := by
  unfold skippedB at h
  rcases hv : Json.getKey d k with _ | v
  · rw [hv] at h; cases h
  · exact ⟨v, rfl⟩

theorem first_present_none_iff (d : List (String × Json)) :
    ∀ keys : List String,
      (first_present d keys = none ↔ ∀ k ∈ keys, skippedB d k = true) := by
  intro keys
  induction keys with
  | nil => simp [first_present]
  | cons k ks ih =>
    rw [first_present_cons]
    by_cases h : skippedB d k = true
    · simp [h, ih]
    · have h' : skippedB d k = false := by
        cases hh : skippedB d k
        · rfl
        · exact absurd hh h
      obtain ⟨v, hv⟩ := skippedB_false_getKey h'
      simp [h', hv]

theorem first_present_some_iff (d : List (String × Json)) :
    ∀ (keys : List String) (v : Json),
      (first_present d keys = some v ↔
        ∃ ks₁ k ks₂, keys = ks₁ ++ k :: ks₂ ∧ skippedB d k = false ∧
          Json.getKey d k = some v ∧ ∀ k' ∈ ks₁, skippedB d k' = true) := by
  intro keys
  induction keys with
  | nil =>
    intro v
    constructor
    · intro h; simp [first_present] at h
    · rintro ⟨ks₁, k, ks₂, heq, -⟩
      exact absurd heq (by simp)
  | cons a ks ih =>
    intro v
    rw [first_present_cons]
    by_cases h : skippedB d a = true
    · rw [if_pos h, ih]
      constructor
      · rintro ⟨ks₁, k, ks₂, rfl, hk, hv, hall⟩
        refine ⟨a :: ks₁, k, ks₂, rfl, hk, hv, ?_⟩
        intro k' hk'
        rcases List.mem_cons.mp hk' with rfl | hmem
        · exact h
        · exact hall k' hmem
      · rintro ⟨ks₁, k, ks₂, heq, hk, hv, hall⟩
        cases ks₁ with
        | nil =>
          simp only [List.nil_append] at heq
          injection heq with h1 h2
          subst h1
          exact absurd hk (by simp [h])
        | cons b ks₁' =>
          injection heq with h1 h2
          subst h1
          exact ⟨ks₁', k, ks₂, h2, hk, hv,
            fun k' hm => hall k' (List.mem_cons_of_mem _ hm)⟩
    · have h' : skippedB d a = false := by
        cases hh : skippedB d a
        · rfl
        · exact absurd hh h
      rw [if_neg h]
      constructor
      · intro hv
        exact ⟨[], a, ks, rfl, h', hv, by simp⟩
      · rintro ⟨ks₁, k, ks₂, heq, hk, hv, hall⟩
        cases ks₁ with
        | nil =>
          simp only [List.nil_append] at heq
          injection heq with h1 h2
          subst h1
          exact hv
        | cons b ks₁' =>
          injection heq with h1 h2
          subst h1
          exact absurd (hall a (List.mem_cons_self ..)) (by simp [h'])

/-- Any value `first_present` returns is neither JSON null nor a blank
string. -/
theorem first_present_kept {d : List (String × Json)} {keys : List String}
    {v : Json} (h : first_present d keys = some v) :
    v ≠ Json.null ∧ ∀ s, v = Json.str s → isBlank s = false := by
  obtain ⟨ks₁, k, ks₂, -, hk, hv, -⟩ := (first_present_some_iff d keys v).mp h
  unfold skippedB at hk
  rw [hv] at hk
  cases v with
  | null => cases hk
  | str s =>
    refine ⟨fun hc => Json.noConfusion hc, fun s' hs' => ?_⟩
    cases hs'
    exact hk
  | bool b =>
    exact ⟨fun hc => Json.noConfusion hc, fun s' hs' => Json.noConfusion hs'⟩
  | num n =>
    exact ⟨fun hc => Json.noConfusion hc, fun s' hs' => Json.noConfusion hs'⟩
  | arr xs =>
    exact ⟨fun hc => Json.noConfusion hc, fun s' hs' => Json.noConfusion hs'⟩
  | obj fs =>
    exact ⟨fun hc => Json.noConfusion hc, fun s' hs' => Json.noConfusion hs'⟩

theorem unwrap_loop_descend : ∀ (k : Nat) (p : Json),
    ∃ n, n ≤ k ∧ descend n p = some (unwrap_loop k p) ∧
      (n < k → unwrap_step (unwrap_loop k p) = none) := by
  intro k
  induction k with
  | zero =>
    intro p
    exact ⟨0, Nat.le_refl 0, rfl, fun h => absurd h (by simp)⟩
  | succ k ih =>
    intro p
    rcases hs : unwrap_step p with _ | q
    · refine ⟨0, Nat.zero_le _, ?_, fun _ => ?_⟩
      · simp [unwrap_loop, hs, descend]
      · simp [unwrap_loop, hs]
    · obtain ⟨n, hn, hd, hstop⟩ := ih q
      refine ⟨n + 1, Nat.succ_le_succ hn, ?_, ?_⟩
      · simpa [descend, unwrap_loop, hs] using hd
      · intro hlt
        simpa [unwrap_loop, hs] using hstop (Nat.lt_of_succ_lt_succ hlt)

/-- C3.  `unwrap_data` always terminates: its value is reached by at
most 6 applications of the descent rule `unwrap_step` (descend into an
object-valued "data" key, or into the object first element of a
non-empty list under "data", else stop); when fewer than 6 steps were
taken, no further descent applies at the result; and when the final
value is not an object the function returns the empty record.  The
embedding is a total function, so no input can raise. -/
theorem unwrap_data_bounded (payload : Json) :
    (∃ n, n ≤ 6 ∧ descend n payload = some (unwrap_loop 6 payload) ∧
      (n < 6 → unwrap_step (unwrap_loop 6 payload) = none))
    ∧ (Json.isObj (unwrap_loop 6 payload) = false → unwrap_data payload = [])
    ∧ (∀ fields, unwrap_loop 6 payload = Json.obj fields →
        unwrap_data payload = fields) := by
  refine ⟨unwrap_loop_descend 6 payload, ?_, ?_⟩
  · intro h
    unfold unwrap_data
    cases hu : unwrap_loop 6 payload <;> simp_all [Json.isObj]
  · intro fields hf
    unfold unwrap_data
    rw [hf]

/-- C3 witness: a non-object payload descends zero steps and yields the
empty record. -/
theorem unwrap_data_bounded_witness :
    Json.isObj (unwrap_loop 6 (Json.str "x")) = false ∧
      unwrap_data (Json.str "x") = [] :=
  ⟨rfl, (unwrap_data_bounded (Json.str "x")).2.1 rfl⟩

/-- C4.  For every record and non-empty priority list, `first_present`
returns `none` exactly when every key is skipped (absent, JSON null, or
a blank string — so whitespace-only values are treated as absent), and
returns `some v` exactly when the list splits as `ks₁ ++ k :: ks₂` with
every key of `ks₁` skipped and `k` the first non-skipped key, holding
`v`. -/
theorem first_present_priority_spec (d : List (String × Json))
    (keys : List String) (_hne : keys ≠ []) :
    (first_present d keys = none ↔ ∀ k ∈ keys, skippedB d k = true)
    ∧ ∀ v, (first_present d keys = some v ↔
        ∃ ks₁ k ks₂, keys = ks₁ ++ k :: ks₂ ∧ skippedB d k = false ∧
          Json.getKey d k = some v ∧ ∀ k' ∈ ks₁, skippedB d k' = true) :=
  ⟨first_present_none_iff d keys, fun v => first_present_some_iff d keys v⟩

/-- C4 witness: on a record whose first candidate is whitespace-only,
the second candidate's value is returned. -/
theorem first_present_priority_spec_witness :
    (["a", "b"] : List String) ≠ [] ∧
    (∃ ks₁ k ks₂, (["a", "b"] : List String) = ks₁ ++ k :: ks₂ ∧
      skippedB [("a", Json.str " "), ("b", Json.num 3)] k = false ∧
      Json.getKey [("a", Json.str " "), ("b", Json.num 3)] k =
        some (Json.num 3) ∧
      ∀ k' ∈ ks₁, skippedB [("a", Json.str " "), ("b", Json.num 3)] k' = true) :=
  ⟨by decide,
    ((first_present_priority_spec [("a", Json.str " "), ("b", Json.num 3)]
      ["a", "b"] (by decide)).2 (Json.num 3)).mp rfl⟩

/-- C5 counterexample: the record holds the non-blank string
"Unknown date" under the primary key "memory_date", yet the resolved
memory date is the created_at value, because the code's sentinel test
`memory_date == "Unknown date"` cannot distinguish a data value equal to
the sentinel from an absent date. -/
theorem resolve_memory_date_sentinel_cex :
    first_present [("memory_date", Json.str "Unknown date"),
        ("created_at", Json.str "2024-05-05")]
      ["memory_date", "memoryDate", "date"] = some (Json.str "Unknown date")
    ∧ isBlank "Unknown date" = false
    ∧ resolve_memory_date [("memory_date", Json.str "Unknown date"),
        ("created_at", Json.str "2024-05-05")] = Json.str "2024-05-05"
    ∧ Json.str "2024-05-05" ≠ Json.str "Unknown date" := by
  refine ⟨rfl, rfl, rfl, fun h => ?_⟩
  injection h with h'
  exact absurd h' (by decide)

/-- C5 amended: the memory-date resolves through the primary list
["memory_date", "memoryDate", "date"], and whenever a primary key holds
a truthy value other than the exact string "Unknown date" that value is
used and created_at/createdAt are ignored; the fallback list is
consulted when the primary list yields nothing (and also when it yields
a falsy value or the sentinel string itself). -/
theorem resolve_memory_date_amended (d : List (String × Json)) :
    (∀ v, first_present d ["memory_date", "memoryDate", "date"] = some v →
      v.isTruthy = true → isUnknownDate v = false → resolve_memory_date d = v)
    ∧ (∀ c, first_present d ["memory_date", "memoryDate", "date"] = none →
        first_present d ["created_at", "createdAt"] = some (Json.str c) →
        resolve_memory_date d = Json.str c) := by
  constructor
  · intro v hv htr hud
    simp [resolve_memory_date, pyOr, hv, htr, hud]
  · intro c hnone hca
    have hblank := (first_present_kept hca).2 c rfl
    simp [resolve_memory_date, pyOr, hnone, isUnknownDate, hca, hblank]

/-- C5 amended witness: a truthy, non-sentinel primary date wins over a
present created_at. -/
theorem resolve_memory_date_amended_witness :
    first_present [("memory_date", Json.str "2020-02-02"),
        ("created_at", Json.str "1999-01-01")]
      ["memory_date", "memoryDate", "date"] = some (Json.str "2020-02-02")
    ∧ resolve_memory_date [("memory_date", Json.str "2020-02-02"),
        ("created_at", Json.str "1999-01-01")] = Json.str "2020-02-02" :=
  ⟨rfl, (resolve_memory_date_amended [("memory_date", Json.str "2020-02-02"),
      ("created_at", Json.str "1999-01-01")]).1 (Json.str "2020-02-02") rfl
    (by decide) (by decide)⟩

theorem skippedB_false_of_kept {d : List (String × Json)} {k : String}
    {v : Json} (hg : Json.getKey d k = some v) (hnull : v ≠ Json.null)
    (hstr : ∀ s, v = Json.str s → isBlank s = false) :
    skippedB d k = false := by
  unfold skippedB
  rw [hg]
  cases v with
  | null => exact absurd rfl hnull
  | str s => exact hstr s rfl
  | bool b => rfl
  | num n => rfl
  | arr xs => rfl
  | obj fs => rfl

/-- C2 counterexample: the unwrapped random payload contains a "text"
key (holding a whitespace-only string), yet the resolver performs a
follow-up by-id fetch and returns the fetched payload, not the original
one. -/
theorem get_random_mous_full_blank_text_cex :
    Json.hasKey (unwrap_data (Json.obj [("text", Json.str " "),
        ("id", Json.str "abc")])) "text" = true
    ∧ get_random_mous_full (Json.obj [("text", Json.str " "),
        ("id", Json.str "abc")]) (fun _ => Json.null) =
      .ok (Json.null, ["abc"])
    ∧ (["abc"] : List String) ≠ []
    ∧ Json.null ≠ Json.obj [("text", Json.str " "), ("id", Json.str "abc")] :=
  ⟨rfl, rfl, by decide, fun h => Json.noConfusion h⟩

/-- C2 amended: for a random-endpoint response containing only an id,
the resolver issues exactly one follow-up fetch to the by-id endpoint
and returns that second payload; for a random-endpoint response whose
unwrapped object contains a "text" key holding a value that is neither
JSON null nor a blank string, no follow-up fetch occurs and the
original payload is returned. -/
theorem get_random_mous_full_two_step (f : String → Json) :
    get_random_mous_full (Json.obj [("id", Json.str "abc")]) f =
      .ok (f "abc", ["abc"])
    ∧ (∀ payload v, Json.getKey (unwrap_data payload) "text" = some v →
        v ≠ Json.null → (∀ s, v = Json.str s → isBlank s = false) →
        get_random_mous_full payload f = .ok (payload, [])) := by
  refine ⟨rfl, ?_⟩
  intro payload v hv hnull hstr
  have hk : skippedB (unwrap_data payload) "text" = false :=
    skippedB_false_of_kept hv hnull hstr
  have hsome : (first_present (unwrap_data payload)
      ["username", "text", "memory_date", "category"]).isSome = true := by
    rcases hfp : first_present (unwrap_data payload)
        ["username", "text", "memory_date", "category"] with _ | w
    · have := (first_present_none_iff (unwrap_data payload)
        ["username", "text", "memory_date", "category"]).mp hfp "text" (by simp)
      rw [hk] at this
      cases this
    · rfl
  have hhk : Json.hasKey (unwrap_data payload) "text" = true := by
    unfold Json.hasKey
    rw [hv]
    rfl
  unfold get_random_mous_full
  simp [hsome, hhk]

/-- C2 amended witness: a payload with a real "text" value is returned
as-is with no follow-up fetch. -/
theorem get_random_mous_full_two_step_witness :
    Json.getKey (unwrap_data (Json.obj [("text", Json.str "hi")])) "text" =
      some (Json.str "hi")
    ∧ get_random_mous_full (Json.obj [("text", Json.str "hi")])
        (fun _ => Json.null) = .ok (Json.obj [("text", Json.str "hi")], []) :=
  ⟨rfl, (get_random_mous_full_two_step (fun _ => Json.null)).2
    (Json.obj [("text", Json.str "hi")]) (Json.str "hi") rfl
    (fun h => Json.noConfusion h)
    (fun s hs => by injection hs with h'; rw [← h']; rfl)⟩

/-- C7.  When the unwrapped random payload has none of the indicator
keys "text"/"username"/"memory_date": if both "id" and "ID" in the
original payload are absent (or null or blank), the resolver raises the
RuntimeError naming the unexpected shape; if a non-blank string id is
found (checking "id" then "ID"), it performs exactly the one by-id
fetch and returns that payload. -/
theorem get_random_mous_full_shape_spec (pfields : List (String × Json))
    (f : String → Json)
    (hind : Json.hasKey (unwrap_data (Json.obj pfields)) "text" = false ∧
      Json.hasKey (unwrap_data (Json.obj pfields)) "username" = false ∧
      Json.hasKey (unwrap_data (Json.obj pfields)) "memory_date" = false) :
    (skippedB pfields "id" = true → skippedB pfields "ID" = true →
      get_random_mous_full (Json.obj pfields) f = .error .runtimeShapeError)
    ∧ ∀ s, first_present pfields ["id", "ID"] = some (Json.str s) →
        get_random_mous_full (Json.obj pfields) f = .ok (f s, [s]) := by
  obtain ⟨h1, h2, h3⟩ := hind
  constructor
  · intro ha hb
    have hfp : first_present pfields ["id", "ID"] = none := by
      refine (first_present_none_iff pfields ["id", "ID"]).mpr ?_
      intro k hk
      simp only [List.mem_cons, List.not_mem_nil, or_false] at hk
      rcases hk with rfl | rfl
      · exact ha
      · exact hb
    unfold get_random_mous_full
    simp [h1, h2, h3, hfp]
  · intro s hs
    have hbl := (first_present_kept hs).2 s rfl
    unfold get_random_mous_full
    simp [h1, h2, h3, hs, hbl]

/-- C7 witness: an empty random payload raises the shape error; a
payload holding only an id triggers the single by-id follow-up. -/
theorem get_random_mous_full_shape_spec_witness :
    get_random_mous_full (Json.obj []) (fun _ => Json.null) =
      .error .runtimeShapeError
    ∧ get_random_mous_full (Json.obj [("id", Json.str "abc")])
        (fun _ => Json.null) = .ok (Json.null, ["abc"]) :=
  ⟨(get_random_mous_full_shape_spec [] (fun _ => Json.null)
      ⟨rfl, rfl, rfl⟩).1 rfl rfl,
    (get_random_mous_full_shape_spec [("id", Json.str "abc")]
      (fun _ => Json.null) ⟨rfl, rfl, rfl⟩).2 "abc" rfl⟩

/-- C10.  The fallback id is read from the original payload, not the
unwrapped object: for the payload whose only id sits under a "data"
wrapper and which has no indicator keys, the unwrapped object does hold
the id "abc", yet the resolver raises the shape error instead of
fetching by id. -/
theorem get_random_mous_full_wrapped_id (f : String → Json) :
    first_present (unwrap_data (Json.obj [("data",
        Json.obj [("id", Json.str "abc")])])) ["id", "ID"] =
      some (Json.str "abc")
    ∧ Json.hasKey (unwrap_data (Json.obj [("data",
        Json.obj [("id", Json.str "abc")])])) "text" = false
    ∧ Json.hasKey (unwrap_data (Json.obj [("data",
        Json.obj [("id", Json.str "abc")])])) "username" = false
    ∧ Json.hasKey (unwrap_data (Json.obj [("data",
        Json.obj [("id", Json.str "abc")])])) "memory_date" = false
    ∧ get_random_mous_full (Json.obj [("data",
        Json.obj [("id", Json.str "abc")])]) f =
      .error .runtimeShapeError :=
  ⟨rfl, rfl, rfl, rfl, rfl⟩

theorem mem_dropWhile_of_not {α : Type} (p : α → Bool) :
    ∀ (l : List α) (x : α), x ∈ l → p x = false → x ∈ l.dropWhile p := by
  intro l
  induction l with
  | nil => intro x hm; cases hm
  | cons a t ih =>
    intro x hm hp
    rw [List.dropWhile_cons]
    by_cases ha : p a = true
    · rw [if_pos ha]
      rcases List.mem_cons.mp hm with rfl | hmem
      · rw [hp] at ha; cases ha
      · exact ih x hmem hp
    · rw [if_neg ha]
      exact hm

/-- Stripping whitespace from a string that has a non-whitespace
character leaves a string that still has one. -/
theorem pyStrip_not_blank {s : String} (h : isBlank s = false) :
    isBlank (pyStrip s) = false := by
  unfold isBlank at h ⊢
  unfold pyStrip
  rw [List.all_eq_false] at h ⊢
  obtain ⟨x, hm, hx⟩ := h
  have hx' : Char.isWhitespace x = false := by
    cases hh : Char.isWhitespace x
    · rfl
    · exact absurd hh hx
  refine ⟨x, ?_, hx⟩
  show x ∈ ((s.data.dropWhile Char.isWhitespace).reverse.dropWhile
    Char.isWhitespace).reverse
  exact List.mem_reverse.mpr (mem_dropWhile_of_not _ _ _
    (List.mem_reverse.mpr (mem_dropWhile_of_not _ _ _ hm hx')) hx')

theorem pick_text_rest_ok_not_blank (d : List (String × Json)) (t : String)
    (h : pick_text_rest d = .ok t) : isBlank t = false := by
  unfold pick_text_rest at h
  repeat' split at h
  all_goals try exact Except.noConfusion h
  all_goals injection h with h'
  all_goals rw [← h']
  all_goals try rfl
  all_goals
    apply pyStrip_not_blank
    rename_i hb
    simpa using hb

theorem pick_text_ok_not_blank (d : List (String × Json)) (t : String)
    (h : pick_text d = .ok t) : isBlank t = false := by
  unfold pick_text at h
  repeat' split at h
  all_goals try exact pick_text_rest_ok_not_blank d t h
  all_goals injection h with h'
  all_goals rw [← h']
  all_goals
    apply pyStrip_not_blank
    rename_i hb
    simpa using hb

theorem fieldNonEmpty_pyOr (d : List (String × Json)) (keys : List String)
    (dflt : Json) (hd : fieldNonEmpty dflt = true) :
    fieldNonEmpty (pyOr (first_present d keys) dflt) = true := by
  rcases hfp : first_present d keys with _ | v
  · simpa [pyOr]
  · obtain ⟨hnull, hstr⟩ := first_present_kept hfp
    unfold pyOr
    simp only []
    by_cases ht : v.isTruthy = true
    · rw [if_pos ht]
      cases v with
      | null => exact absurd rfl hnull
      | str s => simpa [fieldNonEmpty] using hstr s rfl
      | bool b => rfl
      | num n => rfl
      | arr xs => rfl
      | obj fs => rfl
    · rw [if_neg ht]
      exact hd

theorem fieldNonEmpty_resolve_memory_date (d : List (String × Json)) :
    fieldNonEmpty (resolve_memory_date d) = true := by
  have hmd : fieldNonEmpty (pyOr (first_present d
      ["memory_date", "memoryDate", "date"]) (.str "Unknown date")) = true :=
    fieldNonEmpty_pyOr d _ _ rfl
  unfold resolve_memory_date
  by_cases hu : isUnknownDate (pyOr (first_present d
      ["memory_date", "memoryDate", "date"]) (.str "Unknown date")) = true
  · rw [if_pos hu]
    split
    · split
      · exact hmd
      · rename_i hb
        simp only [fieldNonEmpty]
        simpa using hb
    · exact hmd
  · rw [if_neg hu]
    exact hmd

/-- C6 (code bug): canonical-record construction is not total.  On the
payload whose "language" field holds the number 5 (and which has no
text-candidate keys), `build_embed` raises `AttributeError` from
`(first_present(data, "language", "lang") or "").strip()`, so no record
with default fields is produced for that shape.  On every payload where
construction does succeed, the claimed invariant holds: all five fields
are non-null and non-blank, and a payload unwrapping to the empty
record receives exactly the documented defaults. -/
theorem build_record_defaults :
    build_record (Json.obj [("language", Json.num 5)]) =
      .error PyErr.attributeError
    ∧ (∀ payload r, build_record payload = .ok r →
        fieldNonEmpty r.username = true ∧ fieldNonEmpty r.memoryDate = true ∧
        fieldNonEmpty r.category = true ∧ fieldNonEmpty r.mousId = true ∧
        isBlank r.text = false)
    ∧ (∀ payload r, build_record payload = .ok r → unwrap_data payload = [] →
        r = ⟨Json.str "Unknown", Json.str "Unknown date", Json.str "mous",
          Json.str "unknown-id", "*No text found.*"⟩) := by
  refine ⟨rfl, ?_, ?_⟩
  · intro payload r h
    simp only [build_record] at h
    rcases hp : pick_text (unwrap_data payload) with e | t
    · rw [hp] at h
      exact Except.noConfusion h
    · rw [hp] at h
      try simp only [] at h
      injection h with h'
      rw [← h']
      exact ⟨fieldNonEmpty_pyOr _ _ _ rfl, fieldNonEmpty_resolve_memory_date _,
        fieldNonEmpty_pyOr _ _ _ rfl, fieldNonEmpty_pyOr _ _ _ rfl,
        pick_text_ok_not_blank _ _ hp⟩
  · intro payload r h hu
    have hempty : build_record payload = .ok ⟨Json.str "Unknown",
        Json.str "Unknown date", Json.str "mous", Json.str "unknown-id",
        "*No text found.*"⟩ := by
      unfold build_record
      rw [hu]
      rfl
    rw [hempty] at h
    injection h with h'
    exact h'.symm

/-- C6 witness: a payload carrying only a username resolves that field
and defaults the rest, all five fields non-empty. -/
theorem build_record_defaults_witness :
    build_record (Json.obj [("username", Json.str "alice")]) =
      .ok ⟨Json.str "alice", Json.str "Unknown date", Json.str "mous",
        Json.str "unknown-id", "*No text found.*"⟩
    ∧ (fieldNonEmpty (Json.str "alice") = true ∧
        fieldNonEmpty (Json.str "Unknown date") = true ∧
        fieldNonEmpty (Json.str "mous") = true ∧
        fieldNonEmpty (Json.str "unknown-id") = true ∧
        isBlank "*No text found.*" = false) :=
  ⟨rfl, build_record_defaults.2.1 (Json.obj [("username", Json.str "alice")])
    ⟨Json.str "alice", Json.str "Unknown date", Json.str "mous",
      Json.str "unknown-id", "*No text found.*"⟩ rfl⟩

/-- C8 (code bug): `load_last_post_date` returns no marker for an
absent file, an I/O error, or malformed JSON text, and returns a date
exactly when the file parses to a JSON object whose "last_post_date"
value is a string — but a state file whose bytes are not valid UTF-8
makes `json.load` raise `UnicodeDecodeError`, which none of the
`except` clauses (`FileNotFoundError`, `json.JSONDecodeError`,
`OSError`) catches, so `load` propagates an exception instead of
treating the condition as "no marker". -/
theorem load_last_post_date_spec :
    load_last_post_date (.file .invalidUtf8) = .error .unicodeDecodeError
    ∧ load_last_post_date .absent = .ok none
    ∧ load_last_post_date .ioError = .ok none
    ∧ load_last_post_date (.file .malformedText) = .ok none
    ∧ (∀ (j : List (String × Json)) (s : String),
        (load_last_post_date (.file (.jsonValue (.obj j))) = .ok (some s) ↔
          Json.getKey j "last_post_date" = some (.str s)))
    ∧ (∀ j : Json, Json.isObj j = false →
        load_last_post_date (.file (.jsonValue j)) = .ok none) := by
  refine ⟨rfl, rfl, rfl, rfl, ?_, ?_⟩
  · intro j s
    constructor
    · intro h
      unfold load_last_post_date at h
      try simp only [] at h
      split at h
      · injection h with h''
        injection h'' with h'''
        rename_i s' heq
        rw [← h''']
        exact heq
      · injection h with h''
        exact Option.noConfusion h''
    · intro hg
      unfold load_last_post_date
      try simp only []
      rw [hg]
  · intro j hj
    cases j with
    | obj fs => simp [Json.isObj] at hj
    | null => rfl
    | bool b => rfl
    | num n => rfl
    | str s => rfl
    | arr xs => rfl

/-- C8 witness: a well-formed marker file loads its date. -/
theorem load_last_post_date_spec_witness :
    load_last_post_date (.file (.jsonValue (.obj [("last_post_date",
      Json.str "2024-01-01")]))) = .ok (some "2024-01-01") :=
  (load_last_post_date_spec.2.2.2.2.1 [("last_post_date",
    Json.str "2024-01-01")] "2024-01-01").mpr rfl

/-- C1.  Daily-post idempotence: if a fire on day `today` performs its
one send and the state write succeeds, a second fire on the same day is
a no-op (returns with zero sends and the disk unchanged), so exactly
one send occurs in total; and whenever `load` already returns `today`
at the start of a fire, that fire performs no send and no state
write. -/
theorem daily_fire_idempotent (today : String) (d : DiskState)
    (e1 e2 e : FireEnv) (r1 : FireResult) :
    (daily_fire today e1 d = .ok r1 → r1.sends = 1 → e1.saveOk = true →
      daily_fire today e2 r1.disk = .ok ⟨r1.disk, 0⟩)
    ∧ (load_last_post_date d = .ok (some today) →
      daily_fire today e d = .ok ⟨d, 0⟩) := by
  constructor
  · intro h hs hsave
    have hdisk : r1.disk = save_last_post_date today e1.saveOk d := by
      unfold daily_fire at h
      repeat' split at h
      all_goals try exact Except.noConfusion h
      all_goals injection h with h'
      all_goals rw [← h'] at hs
      all_goals simp at hs
      rw [← h']
    rw [hdisk, hsave]
    simp [daily_fire, save_last_post_date, load_last_post_date, Json.getKey]
  · intro h
    unfold daily_fire
    rw [h]
    simp

/-- C1 witness: first fire of the day posts and saves; the same-day
re-fire is a no-op. -/
theorem daily_fire_idempotent_witness :
    daily_fire "2024-01-01" ⟨true, .ok (Json.obj []), true, true⟩ .absent =
      .ok ⟨.file (.jsonValue (.obj [("last_post_date",
        Json.str "2024-01-01")])), 1⟩
    ∧ daily_fire "2024-01-01" ⟨true, .ok (Json.obj []), true, true⟩
        (.file (.jsonValue (.obj [("last_post_date",
          Json.str "2024-01-01")]))) =
      .ok ⟨.file (.jsonValue (.obj [("last_post_date",
        Json.str "2024-01-01")])), 0⟩ :=
  ⟨rfl, (daily_fire_idempotent "2024-01-01" .absent
      ⟨true, .ok (Json.obj []), true, true⟩
      ⟨true, .ok (Json.obj []), true, true⟩
      ⟨true, .ok (Json.obj []), true, true⟩
      ⟨.file (.jsonValue (.obj [("last_post_date",
        Json.str "2024-01-01")])), 1⟩).1 rfl rfl rfl⟩

/-- C9 (code bug): whenever the initial `load_last_post_date()` call
returns (rather than raises), the fire handler returns normally for
every combination of fetch/normalize/render/send outcomes — exceptions
from those steps are caught and discarded — and it is atomic: zero
sends leave the disk exactly as before, and the disk changes only to
the marker for `today` after a successful send.  But the load call
itself sits outside the `try`, so a state file with invalid UTF-8 makes
the handler propagate `UnicodeDecodeError`, contradicting the claim
that the fire handler never propagates an exception. -/
theorem daily_fire_atomic (today : String) (e : FireEnv) (d : DiskState) :
    daily_fire today e (.file .invalidUtf8) = .error .unicodeDecodeError
    ∧ (∀ m, load_last_post_date d = .ok m →
        ∃ r, daily_fire today e d = .ok r ∧
          (r.sends = 0 → r.disk = d) ∧
          (r.disk = d ∨ (r.sends = 1 ∧ e.sendOk = true ∧
            r.disk = .file (.jsonValue (.obj [("last_post_date",
              Json.str today)]))))) := by
  refine ⟨rfl, ?_⟩
  intro m hm
  unfold daily_fire
  rw [hm]
  try simp only []
  by_cases hmt : m = some today
  · rw [if_pos hmt]
    exact ⟨⟨d, 0⟩, rfl, fun _ => rfl, Or.inl rfl⟩
  · rw [if_neg hmt]
    by_cases hc : e.channelOk = false
    · rw [if_pos hc]
      exact ⟨⟨d, 0⟩, rfl, fun _ => rfl, Or.inl rfl⟩
    · rw [if_neg hc]
      rcases hp : e.payload with u | p
      · exact ⟨⟨d, 0⟩, rfl, fun _ => rfl, Or.inl rfl⟩
      · simp only []
        rcases hb : build_record p with e' | rec
        · exact ⟨⟨d, 0⟩, rfl, fun _ => rfl, Or.inl rfl⟩
        · cases hsd : e.sendOk with
          | false =>
            exact ⟨⟨d, 0⟩, rfl, fun _ => rfl, Or.inl rfl⟩
          | true =>
            refine ⟨⟨save_last_post_date today e.saveOk d, 1⟩, rfl,
              fun h0 => absurd h0 (by simp), ?_⟩
            cases hsv : e.saveOk with
            | false =>
              refine Or.inl ?_
              simp [save_last_post_date]
            | true =>
              refine Or.inr ⟨rfl, rfl, ?_⟩
              simp [save_last_post_date]

/-- C9 witness: with a loadable (absent) state file, a fire returns
normally and satisfies the atomicity properties. -/
theorem daily_fire_atomic_witness :
    load_last_post_date DiskState.absent = .ok none
    ∧ ∃ r, daily_fire "2024-01-01"
        ⟨true, .ok (Json.obj []), true, true⟩ DiskState.absent = .ok r ∧
        (r.sends = 0 → r.disk = DiskState.absent) ∧
        (r.disk = DiskState.absent ∨ (r.sends = 1 ∧
          (FireEnv.mk true (.ok (Json.obj [])) true true).sendOk = true ∧
          r.disk = .file (.jsonValue (.obj [("last_post_date",
            Json.str "2024-01-01")])))) :=
  ⟨rfl, (daily_fire_atomic "2024-01-01"
    ⟨true, .ok (Json.obj []), true, true⟩ DiskState.absent).2 none rfl⟩
